import Mathlib

/-!
# Verification of the XDE-WorldManager scene composition layer

Shallow embedding of `src/core.py` (class `WorldManager`): the World data
model (the `scene_pb2.World` protobuf schema as used by the code), the
physics/graphics backend registries the manager mutates, and the
add/remove/marker/clean operations.  Backend calls that the manager issues
(`deleteComponent`, `removeRigidBody`, `removeUnusedContactMaterials`,
marker add/remove, ...) are modelled on explicit registry states; traced
variants record the sequence of backend calls where an ordering claim is
at stake.
-/

namespace XWM

/-! ## World data model

The `scene_pb2.World` schema as consumed by `core.py`:
`World.scene.physical_scene` has `nodes` (a forest of physical nodes, each
with `rigid_body.name`, `inner_joint.name` and `children`), `mechanisms`
and `contact_materials`; `World.scene.graphical_scene` has a `root_node`
tree and a `markers` list. -/

inductive PhysicalNode where
  | mk (rigid_body : String) (inner_joint : String) (children : List PhysicalNode)

def PhysicalNode.rigid_body : PhysicalNode → String
  | .mk r _ _ => r

def PhysicalNode.inner_joint : PhysicalNode → String
  | .mk _ j _ => j

def PhysicalNode.children : PhysicalNode → List PhysicalNode
  | .mk _ _ c => c

structure Mechanism where
  name : String
deriving Repr, DecidableEq

inductive GraphicalNode where
  | mk (name : String) (children : List GraphicalNode)

def GraphicalNode.name : GraphicalNode → String
  | .mk n _ => n

def GraphicalNode.children : GraphicalNode → List GraphicalNode
  | .mk _ c => c

structure Marker where
  name : String
deriving Repr, DecidableEq

structure PhysicalScene where
  nodes : List PhysicalNode
  mechanisms : List Mechanism
  contact_materials : List String

structure GraphicalScene where
  root_node : GraphicalNode
  markers : List Marker

structure Scene where
  physical_scene : PhysicalScene
  graphical_scene : GraphicalScene

structure World where
  scene : Scene

/-- Replace the world's contact-material list (the field the
`addWorldToPhysic` round-trip code mutates). -/
def World.setContactMaterials (w : World) (mats : List String) : World :=
  { w with scene := { w.scene with physical_scene :=
      { w.scene.physical_scene with contact_materials := mats } } }

def World.contactMaterials (w : World) : List String :=
  w.scene.physical_scene.contact_materials

def World.physicalNodes (w : World) : List PhysicalNode :=
  w.scene.physical_scene.nodes

def World.markerRecords (w : World) : List Marker :=
  w.scene.graphical_scene.markers

/-! ## Traversal orders over the physical node forest -/

mutual

/-- Rigid-body names of a node tree in depth-first pre-order (declaration
order): the order `desc.physic.getRigidBodyNames` /
`desc.core.visitDepthFirst` enumerate bodies, and the order
`deserializeWorld` creates them. -/
def PhysicalNode.preBodies : PhysicalNode → List String
  | .mk rb _ cs => rb :: preBodiesForest cs

def preBodiesForest : List PhysicalNode → List String
  | [] => []
  | n :: ns => n.preBodies ++ preBodiesForest ns

end

mutual

/-- Rigid-body names in post-order: all children before the node itself,
the order `removeRigidBodyChildren` deletes bodies. -/
def PhysicalNode.postBodies : PhysicalNode → List String
  | .mk rb _ cs => postBodiesForest cs ++ [rb]

def postBodiesForest : List PhysicalNode → List String
  | [] => []
  | n :: ns => n.postBodies ++ postBodiesForest ns

end

mutual

/-- `(rigid_body, inner_joint)` pairs in post-order: the per-node work list
of `removeRigidBodyChildren`, flattened. -/
def PhysicalNode.postRB : PhysicalNode → List (String × String)
  | .mk rb ij cs => postRBForest cs ++ [(rb, ij)]

def postRBForest : List PhysicalNode → List (String × String)
  | [] => []
  | n :: ns => n.postRB ++ postRBForest ns

end

mutual

/-- Component names deleted for a node tree by `removeRigidBodyChildren`:
per node `[rbname, rbname ++ ".comp", inner_joint]`, children first. -/
def PhysicalNode.delNames : PhysicalNode → List String
  | .mk rb ij cs => delNamesForest cs ++ [rb, rb ++ ".comp", ij]

def delNamesForest : List PhysicalNode → List String
  | [] => []
  | n :: ns => n.delNames ++ delNamesForest ns

end

mutual

/-- Components a node tree contributes to the physics component registry
(see `deserializeWorld`): per node the rigid body, its composite companion
and its inner joint, depth-first. -/
def PhysicalNode.nodeComps : PhysicalNode → List (String × String)
  | .mk rb ij cs =>
      (rb, "RigidBody") :: (rb ++ ".comp", "Composite") :: (ij, "Joint") :: nodeCompsForest cs

def nodeCompsForest : List PhysicalNode → List (String × String)
  | [] => []
  | n :: ns => n.nodeComps ++ nodeCompsForest ns

end

/-! ## Physics backend state

The registries of the physics agent (`phy`) and its main scene (`ms`) that
`core.py` reads and mutates: the component registry
(`getComponents`/`getType`/`deleteComponent`), the scene body list
(`getBodyNames`/`removeRigidBody`), the contact-material list
(`getContactMaterials`/`removeUnusedContactMaterials`), the
`OConnectorBodyStateList "ocb"` body registry (`addBody`/`removeBody`) and
the contact interactions (`contact.removeAllInteractionsInvolving`).
`matUsedBy` records which body references which contact material, the
information `removeUnusedContactMaterials` consults. -/
structure PhyState where
  components : List (String × String)
  bodies : List String
  materials : List String
  matUsedBy : List (String × String)
  ocbBodies : List String
  interactions : List (String × String)
deriving Repr, DecidableEq

/-- Backend calls issued by the manager's physics-side code, in order. -/
inductive PhyOp where
  | sceneClean
  | deleteComponent (name : String)
  | removeRigidBody (name : String)
  | removeUnusedContactMaterials
deriving Repr, DecidableEq

def getComponentNames (s : PhyState) : List String :=
  s.components.map Prod.fst

/-- `phy.s.deleteComponent(name)`: drop the component registered under
`name`. -/
def deleteComponent (s : PhyState) (n : String) : PhyState :=
  { s with components := s.components.filter (fun p => p.1 ≠ n) }

/-- `scene.removeRigidBody(name)`: drop the body from the scene body
list. -/
def sceneRemoveRigidBody (s : PhyState) (n : String) : PhyState :=
  { s with bodies := s.bodies.erase n }

/-- `scene.removeUnusedContactMaterials()`: purge every contact material
not referenced by any body still in the scene. -/
def removeUnusedContactMaterials (s : PhyState) : PhyState :=
  { s with materials :=
      s.materials.filter (fun m => s.bodies.any (fun b => decide ((b, m) ∈ s.matUsedBy))) }

/-- Modelled from the spec: `agents.physic.builder.deserializeWorld` (the
external XDE builder, not part of src/) "deserializes the World's physical
scene into the backend (creates bodies, joints, mechanisms, materials)".
Depth-first over the node forest it creates each rigid body in the scene
and registers the body component, its composite companion
(`name + ".comp"`) and its inner joint — exactly the names
`removeWorldFromPhysic` later deletes; each mechanism becomes a component
and each contact material of the (already filtered) world list is added to
the scene's material list.  Nothing in the schema ties a freshly created
body to a material, so no `matUsedBy` entry is added. -/
def deserializeWorld (s : PhyState) (ps : PhysicalScene) : PhyState :=
  { s with
    bodies := s.bodies ++ preBodiesForest ps.nodes
    components := s.components ++ nodeCompsForest ps.nodes
        ++ ps.mechanisms.map (fun m => (m.name, "Mechanism"))
    materials := s.materials ++ ps.contact_materials }

/-! ## addWorldToPhysic -/

/-- One Python `for` iteration of the material filter loop at index `i`,
with explicit remaining-iteration fuel (the index grows by one per
iteration and the list never grows, so `l.length` iterations always
suffice; the fuel only bounds the recursion, it never cuts an execution
short). -/
def matFilterStep (sceneMats : List String) : Nat → Nat → List String → List String
  | 0, _, l => l
  | fuel + 1, i, l =>
      if i < l.length then
        if l.getD i "" ∈ sceneMats then
          matFilterStep sceneMats fuel (i + 1) (l.erase (l.getD i ""))
        else
          matFilterStep sceneMats fuel (i + 1) l
      else l

/-- The loop `for mat in Lmat: if mat in scene.getContactMaterials():
new_world....contact_materials.remove(mat)` of `addWorldToPhysic`.
`Lmat` and `new_world.scene.physical_scene.contact_materials` are the same
protobuf repeated-field container, so the loop iterates by index over the
very list it shrinks: `remove` drops the first occurrence and shifts later
elements left, so the element following a removed one is skipped. -/
def matFilterLoop (sceneMats : List String) (l : List String) : List String :=
  matFilterStep sceneMats l.length 0 l

/-- `WorldManager.addWorldToPhysic` (core.py lines 273-292), acting on the
physics registries and on the caller's World.  `Lmat` is bound to the same
repeated-field container as `new_world.scene.physical_scene.contact_materials`
(protobuf repeated fields are returned by reference, not copied), so:
the filter loop mutates the shared container; `deserializeWorld` sees the
filtered list; the `while` loop then empties the shared container, which
empties `Lmat` as well; and the final `extend(Lmat)` extends the emptied
container with its own (empty) contents.  The caller's World therefore
comes back with an empty contact-material list. -/
def addWorldToPhysicPhy (s : PhyState) (w : World) : PhyState × World :=
  let lmatFiltered := matFilterLoop s.materials w.scene.physical_scene.contact_materials
  let s2 := deserializeWorld s
      { w.scene.physical_scene with contact_materials := lmatFiltered }
  let emptied : List String := []
  let restored := emptied ++ emptied
  (s2, w.setContactMaterials restored)

/-! ## removeWorldFromPhysic -/

/-- One guarded component deletion of the
`for to_del in [rbname, rbname+".comp", inner_joint]` loop:
`if to_del in self.phy.s.getComponents(): self.phy.s.deleteComponent(to_del)`. -/
def guardedDelete (p : PhyState × List PhyOp) (n : String) : PhyState × List PhyOp :=
  if n ∈ getComponentNames p.1 then
    (deleteComponent p.1 n, p.2 ++ [PhyOp.deleteComponent n])
  else p

/-- The per-node body of `removeRigidBodyChildren` (core.py lines
396-404): guarded `scene.removeRigidBody`, then guarded deletion of the
rigid body, its `.comp` companion and its inner joint. -/
def removeRigidBodyNodeOps (s : PhyState) (rb ij : String) : PhyState × List PhyOp :=
  let p0 :=
    if rb ∈ s.bodies then
      (sceneRemoveRigidBody s rb, [PhyOp.removeRigidBody rb])
    else (s, ([] : List PhyOp))
  List.foldl guardedDelete p0 [rb, rb ++ ".comp", ij]

mutual

/-- `removeRigidBodyChildren` (core.py lines 393-404): recurse into all
children first, then process the node itself. -/
def removeRigidBodyChildren (s : PhyState) : PhysicalNode → PhyState × List PhyOp
  | .mk rb ij cs =>
      let r1 := removeRigidBodyForest s cs
      let r2 := removeRigidBodyNodeOps r1.1 rb ij
      (r2.1, r1.2 ++ r2.2)

/-- `for node in old_world.scene.physical_scene.nodes:
removeRigidBodyChildren(node)`. -/
def removeRigidBodyForest (s : PhyState) : List PhysicalNode → PhyState × List PhyOp
  | [] => (s, [])
  | n :: ns =>
      let r1 := removeRigidBodyChildren s n
      let r2 := removeRigidBodyForest r1.1 ns
      (r2.1, r1.2 ++ r2.2)

end

/-- One unguarded traced component deletion: a bare
`self.phy.s.deleteComponent(name)` call. -/
def tracedDelete (p : PhyState × List PhyOp) (n : String) : PhyState × List PhyOp :=
  (deleteComponent p.1 n, p.2 ++ [PhyOp.deleteComponent n])

/-- `WorldManager.removeWorldFromPhysic` (core.py lines 378-410): delete
each mechanism component (unguarded), recursively remove every node tree,
then purge unused contact materials. -/
def removeWorldFromPhysicPhy (s : PhyState) (w : World) : PhyState × List PhyOp :=
  let r1 := w.scene.physical_scene.mechanisms.foldl
      (fun p m => tracedDelete p m.name) (s, [])
  let r2 := removeRigidBodyForest r1.1 w.scene.physical_scene.nodes
  (removeUnusedContactMaterials r2.1, r1.2 ++ r2.2 ++ [PhyOp.removeUnusedContactMaterials])

/-- Bodies whose deletion the backend scene observes, in call order. -/
def deletedBodies (t : List PhyOp) : List String :=
  t.filterMap (fun o => match o with
    | .removeRigidBody n => some n
    | _ => none)

/-- Sequential processing of a flat `(rigid_body, inner_joint)` work list,
one node after the other, with no recursion: the claim-side description of
the removal traversal ("all children are fully removed before the node
itself" means the recursive removal equals processing the post-order
flattening of the tree). -/
def processPostRB (s : PhyState) : List (String × String) → PhyState × List PhyOp
  | [] => (s, [])
  | x :: xs =>
      let r1 := removeRigidBodyNodeOps s x.1 x.2
      let r2 := processPostRB r1.1 xs
      (r2.1, r1.2 ++ r2.2)

/-! ## Graphics backend state -/

/-- The graphics scene (`graph_scn`) registries `core.py` uses: scene node
names (`SceneInterface.nodeExists/removeNode`) and marker labels
(`MarkersInterface.getMarkerLabels/addMarker/removeMarker`). -/
structure GraphState where
  sceneNodes : List String
  markerLabels : List String
deriving Repr, DecidableEq

/-- Backend calls issued by the manager's graphics-side code, in order. -/
inductive GraphOp where
  | removeNode (name : String)
  | removeMarker (name : String)
deriving Repr, DecidableEq

mutual

/-- Graphical node names in post-order, the claim-side flattening of
`deleteNodeInGraphicalAgent`. -/
def GraphicalNode.postNames : GraphicalNode → List String
  | .mk nm cs => postNamesForest cs ++ [nm]

def postNamesForest : List GraphicalNode → List String
  | [] => []
  | n :: ns => n.postNames ++ postNamesForest ns

end

/-- One node's own step of `deleteNodeInGraphicalAgent`:
`if self.graph_scn.SceneInterface.nodeExists(nname): removeNode(nname)`. -/
def removeGraphNodeOp (g : GraphState) (nm : String) : GraphState × List GraphOp :=
  if nm ∈ g.sceneNodes then
    ({ g with sceneNodes := g.sceneNodes.filter (fun x => x ≠ nm) },
     [GraphOp.removeNode nm])
  else (g, [])

mutual

/-- `deleteNodeInGraphicalAgent` (core.py lines 358-364): recurse into all
children first, then remove the node itself by name if it still exists. -/
def deleteNodeInGraphicalAgent (g : GraphState) : GraphicalNode → GraphState × List GraphOp
  | .mk nm cs =>
      let r1 := deleteGraphForest g cs
      let r2 := removeGraphNodeOp r1.1 nm
      (r2.1, r1.2 ++ r2.2)

def deleteGraphForest (g : GraphState) : List GraphicalNode → GraphState × List GraphOp
  | [] => (g, [])
  | n :: ns =>
      let r1 := deleteNodeInGraphicalAgent g n
      let r2 := deleteGraphForest r1.1 ns
      (r2.1, r1.2 ++ r2.2)

end

/-- Sequential processing of a flat name list, the claim-side counterpart
of `deleteNodeInGraphicalAgent` on the post-order flattening. -/
def processPostNames (g : GraphState) : List String → GraphState × List GraphOp
  | [] => (g, [])
  | nm :: nms =>
      let r1 := removeGraphNodeOp g nm
      let r2 := processPostNames r1.1 nms
      (r2.1, r1.2 ++ r2.2)

mutual

/-- `deleteNodeInPhysicalAgent` (core.py lines 347-355), the physics-side
part of `removeWorldFromGraphic`: children first, then
`contact.removeAllInteractionsInvolving(body_name)` and
`ocb.removeBody(body_name)`.  `removeAllInteractionsInvolving` is modelled
from the spec ("any interactions involving the node's body are removed");
the `contact` module of this repository is not under src/. -/
def deleteNodeInPhysicalAgent (p : PhyState) : PhysicalNode → PhyState
  | .mk rb _ cs =>
      let p1 := deleteNodePhyForest p cs
      { p1 with
        interactions := p1.interactions.filter (fun i => i.1 ≠ rb && i.2 ≠ rb)
        ocbBodies := p1.ocbBodies.erase rb }

def deleteNodePhyForest (p : PhyState) : List PhysicalNode → PhyState
  | [] => p
  | n :: ns => deleteNodePhyForest (deleteNodeInPhysicalAgent p n) ns

end

/-! ## Manager state and manager-level operations

`WorldManager` holds `phy`/`ms` (created together, modelled as one
optional `PhyState`), `graph` (the graphical agent handle, here just its
existence) and `graph_scn` (the optional graphical scene).  Operations
that can hit a Python exception (`AttributeError` on a `None` agent,
`IndexError` on `nodes[0]`) return `Except`. -/

inductive PyErr where
  | attributeError
  | indexError
deriving Repr, DecidableEq

structure WM where
  phy : Option PhyState
  graphExists : Bool
  graph_scn : Option GraphState

/-- `WorldManager.addWorldToPhysic` at manager level: unguarded use of
`self.phy` / `self.ms`, so a missing physics agent raises. -/
def addWorldToPhysicWM (m : WM) (w : World) : Except PyErr (WM × World) :=
  match m.phy with
  | none => .error .attributeError
  | some p =>
      let r := addWorldToPhysicPhy p w
      .ok ({ m with phy := some r.1 }, r.2)

/-- Modelled from the spec: `agents.graphic.builder.deserializeWorld` (the
external XDE builder, not part of src/) "deserializes the graphical scene
into the backend": the graphical node tree's names enter the scene-node
registry and the world's marker records enter the marker registry. -/
def gDeserializeWorld (g : GraphState) (w : World) : GraphState :=
  { g with
    sceneNodes := g.sceneNodes ++ w.scene.graphical_scene.root_node.postNames
    markerLabels := g.markerLabels ++ w.scene.graphical_scene.markers.map Marker.name }

/-- `WorldManager.addWorldToGraphic` (core.py lines 295-310): nothing at
all if `self.graph is None`; otherwise deserialize the graphical scene and
register every rigid body of the physical scene (depth-first, declaration
order) with the `ocb` body-state output connector. -/
def addWorldToGraphicWM (m : WM) (w : World) : Except PyErr (WM × World) :=
  if m.graphExists then
    match m.graph_scn, m.phy with
    | some g, some p =>
        let g1 := gDeserializeWorld g w
        let p1 := { p with
          ocbBodies := p.ocbBodies ++ preBodiesForest w.scene.physical_scene.nodes }
        .ok ({ m with graph_scn := some g1, phy := some p1 }, w)
    | _, _ => .error .attributeError
  else .ok (m, w)

/-- `WorldManager.addWorld` (core.py lines 314-330): reads
`self.phy.getName()` (raising if the physics agent is missing), then
`addWorldToPhysic`, then `addWorldToGraphic`. -/
def addWorld (m : WM) (w : World) : Except PyErr (WM × World) :=
  match m.phy with
  | none => .error .attributeError
  | some _ =>
      match addWorldToPhysicWM m w with
      | .error e => .error e
      | .ok r => addWorldToGraphicWM r.1 r.2

/-- `WorldManager.removeWorldFromPhysic` at manager level. -/
def removeWorldFromPhysicWM (m : WM) (w : World) : Except PyErr (WM × World) :=
  match m.phy with
  | none => .error .attributeError
  | some p =>
      let r := removeWorldFromPhysicPhy p w
      .ok ({ m with phy := some r.1 }, w)

/-- One guarded backend marker removal, the loop body shared by
`removeWorldFromGraphic`'s marker epilogue and by `removeMarkers`:
`if name in ...getMarkerLabels(): ...removeMarker(name)`. -/
def removeMarkerStep (gc : GraphState) (b : String) : GraphState :=
  if b ∈ gc.markerLabels then
    { gc with markerLabels := gc.markerLabels.filter (fun x => x ≠ b) }
  else gc

/-- The marker-removal epilogue of `removeWorldFromGraphic`: for each
marker record of the world, remove the backend marker of that name if it
is currently listed. -/
def removeWorldMarkers (g : GraphState) (mks : List Marker) : GraphState :=
  mks.foldl (fun gc mk => removeMarkerStep gc mk.name) g

/-- `WorldManager.removeWorldFromGraphic` (core.py lines 333-375): nothing
at all if `self.graph_scn is None`; otherwise it needs `self.phy` for the
`ocb` connector, calls `deleteNodeInPhysicalAgent` on
`old_world.scene.physical_scene.nodes[0]` (an `IndexError` when the world
has no root nodes), then `deleteNodeInGraphicalAgent` on the graphical
root, then removes the world's markers. -/
def removeWorldFromGraphicWM (m : WM) (w : World) : Except PyErr (WM × World) :=
  match m.graph_scn with
  | none => .ok (m, w)
  | some g =>
      match m.phy with
      | none => .error .attributeError
      | some p =>
          match w.scene.physical_scene.nodes with
          | [] => .error .indexError
          | n0 :: _ =>
              let p1 := deleteNodeInPhysicalAgent p n0
              let g1 := (deleteNodeInGraphicalAgent g w.scene.graphical_scene.root_node).1
              let g2 := removeWorldMarkers g1 w.scene.graphical_scene.markers
              .ok ({ m with phy := some p1, graph_scn := some g2 }, w)

/-- `WorldManager.removeWorld` (core.py lines 413-426): graphics first,
then physics. -/
def removeWorld (m : WM) (w : World) : Except PyErr (WM × World) :=
  match removeWorldFromGraphicWM m w with
  | .error e => .error e
  | .ok r => removeWorldFromPhysicWM r.1 r.2

/-! ## Marker operations -/

/-- The `marker_name_list` argument of `addFreeMarkers`: either a single
name (a Python 2 `str`, which has no `__iter__` attribute) or a sequence
of names. -/
inductive MarkerNameArg where
  | single (name : String)
  | seq (names : List String)

/-- `if not hasattr(marker_name_list, '__iter__'): marker_name_list =
[marker_name_list]`: a single name is wrapped into a one-element list, a
sequence is kept. -/
def normalizeNames : MarkerNameArg → List String
  | .single n => [n]
  | .seq l => l

/-- `WorldManager.addFreeMarkers` (core.py lines 530-546): append one
fresh `Marker` record per supplied name to the world's marker list.  No
agent is consulted; the world alone is mutated. -/
def addFreeMarkers (w : World) (arg : MarkerNameArg) : World :=
  { w with scene := { w.scene with graphical_scene :=
      { w.scene.graphical_scene with markers :=
          w.scene.graphical_scene.markers ++ (normalizeNames arg).map Marker.mk } } }

mutual

/-- The `allNodeNames` accumulator driven by
`desc.core.visitDepthFirst(getNodeName, child)`.  Modelled from the spec:
`desc.core.visitDepthFirst` (external `desc` package, not part of src/)
visits a node, applying the callback, then its children depth-first in
declaration order; the callback appends `node.rigid_body.name`. -/
def visitDFacc (acc : List String) : PhysicalNode → List String
  | .mk rb _ cs => visitDFaccForest (acc ++ [rb]) cs

def visitDFaccForest (acc : List String) : List PhysicalNode → List String
  | [] => acc
  | n :: ns => visitDFaccForest (visitDFacc acc n) ns

end

/-- The default target list of `addMarkers` / `removeMarkers` when the
`bodies` argument is omitted: every rigid-body name collected depth-first
over `world.scene.physical_scene.nodes` (both functions contain the
identical six lines). -/
def markerTargets (w : World) (bodies : Option (List String)) : List String :=
  match bodies with
  | some l => l
  | none => visitDFaccForest [] w.scene.physical_scene.nodes

/-- `WorldManager.addMarkers` (core.py lines 463-491): early return when
there is no graphics scene; otherwise, for each target name not currently
a backend marker label, `addFreeMarkers(world, name)` — a World mutation;
names already labelled are skipped with a diagnostic.  The graphics
backend itself is never written. -/
def addMarkersWM (m : WM) (w : World) (bodies : Option (List String)) :
    Except PyErr (WM × World) :=
  match m.graph_scn with
  | none => .ok (m, w)
  | some g =>
      let w' := (markerTargets w bodies).foldl
        (fun wc b =>
          if b ∈ g.markerLabels then wc
          else addFreeMarkers wc (.single b))
        w
      .ok (m, w')

/-- `WorldManager.removeMarkers` (core.py lines 549-575): early return
when there is no graphics scene; otherwise remove each target name's
backend marker when labelled, skipping (with a diagnostic) names without
one. -/
def removeMarkersWM (m : WM) (w : World) (bodies : Option (List String)) :
    Except PyErr (WM × World) :=
  match m.graph_scn with
  | none => .ok (m, w)
  | some g =>
      let g' := (markerTargets w bodies).foldl removeMarkerStep g
      .ok ({ m with graph_scn := some g' }, w)

/-- `WorldManager.addMarkerToSimulation` (core.py lines 507-517): early
return without a graphics scene; otherwise an unconditional
`MarkersInterface.addMarker` (no existence check). -/
def addMarkerToSimulationWM (m : WM) (name : String) (_thin : Bool) : Except PyErr WM :=
  match m.graph_scn with
  | none => .ok m
  | some g =>
      let g' := { g with markerLabels := g.markerLabels ++ [name] }
      .ok { m with graph_scn := some g' }

/-- `WorldManager.removeMarkerFromSimulation` (core.py lines 519-528):
early return without a graphics scene; otherwise an unconditional
`MarkersInterface.removeMarker`. -/
def removeMarkerFromSimulationWM (m : WM) (name : String) : Except PyErr WM :=
  match m.graph_scn with
  | none => .ok m
  | some g =>
      let g' := { g with markerLabels := g.markerLabels.filter (fun x => x ≠ name) }
      .ok { m with graph_scn := some g' }

/-! ## cleanPhy -/

/-- `self.ms.clean()`: clear the main scene's content (bodies, contact
materials, interactions and material references); the agent-level
component registry and the connector body registry are not scene
content. -/
def sceneClean (s : PhyState) : PhyState :=
  { s with bodies := [], materials := [], matUsedBy := [], interactions := [] }

/-- `WorldManager.cleanPhy` (core.py lines 439-450): if the physics agent
exists, first `self.ms.clean()`, then for each kind in
`["Robot", "RigidBody", "Composite"]` delete every component of that kind
(the victim list is a fresh comprehension over the current registry), then
delete every component still registered. -/
def cleanPhy (m : WM) : WM × List PhyOp :=
  match m.phy with
  | none => (m, [])
  | some s =>
      let s1 := sceneClean s
      let r1 := ["Robot", "RigidBody", "Composite"].foldl
        (fun (p : PhyState × List PhyOp) kind =>
          ((p.1.components.filter (fun c => c.2 = kind)).map Prod.fst).foldl tracedDelete p)
        (s1, [PhyOp.sceneClean])
      let r2 := (getComponentNames r1.1).foldl tracedDelete r1
      ({ m with phy := some r2.1 }, r2.2)

/-- The claim's order for `cleanPhy`, stated from the claim's words for
comparison: "first delete all components of kinds Robot, RigidBody, and
Composite, then delete any remaining components, then clear the main
scene". -/
def cleanPhyClaimedOrder (m : WM) : WM × List PhyOp :=
  match m.phy with
  | none => (m, [])
  | some s =>
      let r1 := ["Robot", "RigidBody", "Composite"].foldl
        (fun (p : PhyState × List PhyOp) kind =>
          ((p.1.components.filter (fun c => c.2 = kind)).map Prod.fst).foldl tracedDelete p)
        (s, [])
      let r2 := (getComponentNames r1.1).foldl tracedDelete r1
      ({ m with phy := some (sceneClean r2.1) }, r2.2 ++ [PhyOp.sceneClean])

/-! ## Helper lemmas -/

theorem processPostRB_append (l₁ l₂ : List (String × String)) (s : PhyState) :
    processPostRB s (l₁ ++ l₂) =
      ((processPostRB (processPostRB s l₁).1 l₂).1,
       (processPostRB s l₁).2 ++ (processPostRB (processPostRB s l₁).1 l₂).2) := by
  induction l₁ generalizing s with
  | nil => simp [processPostRB]
  | cons x xs ih => simp [processPostRB, ih, List.append_assoc]

mutual

theorem removeRigidBodyChildren_eq_post (n : PhysicalNode) (s : PhyState) :
    removeRigidBodyChildren s n = processPostRB s n.postRB := by
  cases n with
  | mk rb ij cs =>
      simp only [removeRigidBodyChildren, PhysicalNode.postRB, processPostRB_append,
        removeRigidBodyForest_eq_post cs s, processPostRB, List.append_nil]

theorem removeRigidBodyForest_eq_post (l : List PhysicalNode) (s : PhyState) :
    removeRigidBodyForest s l = processPostRB s (postRBForest l) := by
  cases l with
  | nil => rfl
  | cons n ns =>
      simp only [removeRigidBodyForest, postRBForest, processPostRB_append,
        removeRigidBodyChildren_eq_post n s]
      simp only [removeRigidBodyForest_eq_post ns]

end

theorem processPostNames_append (l₁ l₂ : List String) (g : GraphState) :
    processPostNames g (l₁ ++ l₂) =
      ((processPostNames (processPostNames g l₁).1 l₂).1,
       (processPostNames g l₁).2 ++ (processPostNames (processPostNames g l₁).1 l₂).2) := by
  induction l₁ generalizing g with
  | nil => simp [processPostNames]
  | cons x xs ih => simp [processPostNames, ih, List.append_assoc]

mutual

theorem deleteNodeInGraphicalAgent_eq_post (n : GraphicalNode) (g : GraphState) :
    deleteNodeInGraphicalAgent g n = processPostNames g n.postNames := by
  cases n with
  | mk nm cs =>
      simp only [deleteNodeInGraphicalAgent, GraphicalNode.postNames, processPostNames_append,
        deleteGraphForest_eq_post cs g, processPostNames, List.append_nil]

theorem deleteGraphForest_eq_post (l : List GraphicalNode) (g : GraphState) :
    deleteGraphForest g l = processPostNames g (postNamesForest l) := by
  cases l with
  | nil => rfl
  | cons n ns =>
      simp only [deleteGraphForest, postNamesForest, processPostNames_append,
        deleteNodeInGraphicalAgent_eq_post n g]
      simp only [deleteGraphForest_eq_post ns]

end

mutual

theorem visitDFacc_eq (n : PhysicalNode) (acc : List String) :
    visitDFacc acc n = acc ++ n.preBodies := by
  cases n with
  | mk rb ij cs =>
      simp only [visitDFacc, PhysicalNode.preBodies, visitDFaccForest_eq cs,
        List.append_assoc, List.singleton_append]

theorem visitDFaccForest_eq (l : List PhysicalNode) (acc : List String) :
    visitDFaccForest acc l = acc ++ preBodiesForest l := by
  cases l with
  | nil => simp [visitDFaccForest, preBodiesForest]
  | cons n ns =>
      simp only [visitDFaccForest, preBodiesForest, visitDFacc_eq n,
        visitDFaccForest_eq ns, List.append_assoc]

end

mutual

/-- Number of nodes of a physical node tree. -/
def PhysicalNode.nodeCount : PhysicalNode → Nat
  | .mk _ _ cs => 1 + nodeCountForest cs

def nodeCountForest : List PhysicalNode → Nat
  | [] => 0
  | n :: ns => n.nodeCount + nodeCountForest ns

end

mutual

theorem preBodies_length (n : PhysicalNode) : n.preBodies.length = n.nodeCount := by
  cases n with
  | mk rb ij cs =>
      simp only [PhysicalNode.preBodies, PhysicalNode.nodeCount, List.length_cons,
        preBodiesForest_length cs]
      omega

theorem preBodiesForest_length (l : List PhysicalNode) :
    (preBodiesForest l).length = nodeCountForest l := by
  cases l with
  | nil => rfl
  | cons n ns =>
      simp only [preBodiesForest, nodeCountForest, List.length_append,
        preBodies_length n, preBodiesForest_length ns]

end

/-! ## Claim C1

The spec claims `addWorldToPhysic` restores the caller's contact-material
list exactly.  The code's save/restore dance (`Lmat = ...; ...; empty the
list; extend(Lmat)`) is clearly intended to do that, but `Lmat` aliases
the repeated-field container instead of copying it, so the `extend`
re-adds the contents of the just-emptied container: the caller's list
comes back empty whenever it was non-empty. -/

/-- C1 failing input: a World carrying contact material "m1" added to a
physics scene with no materials at all (so not even the overlap filter can
be blamed). -/
def wC1 : World := ⟨⟨⟨[], [], ["m1"]⟩, ⟨.mk "root" [], []⟩⟩⟩

def phyEmptyC1 : PhyState := ⟨[], [], [], [], [], []⟩

/-- C1: `addWorldToPhysic` does NOT restore the caller's contact-material
list: it always returns the World with an empty `contact_materials` list
(first conjunct), in particular on the failing input `wC1`, whose list is
`["m1"]` before the call and `[]` after, while the deserialized scene did
receive the material. -/
theorem C1_contact_materials_emptied :
    (∀ (s : PhyState) (w : World),
      ((addWorldToPhysicPhy s w).2).contactMaterials = []) ∧
    ((addWorldToPhysicPhy phyEmptyC1 wC1).2).contactMaterials = [] ∧
    wC1.contactMaterials = ["m1"] ∧
    (addWorldToPhysicPhy phyEmptyC1 wC1).1.materials = ["m1"] :=
  ⟨fun _ _ => rfl, rfl, rfl, by decide⟩

/-! ## Claim C3: removal traversal is post-order -/

def sC3 : PhyState :=
  ⟨[("A", "RigidBody"), ("A.comp", "Composite"), ("jA", "Joint"),
    ("B", "RigidBody"), ("B.comp", "Composite"), ("jB", "Joint"),
    ("C", "RigidBody"), ("C.comp", "Composite"), ("jC", "Joint")],
   ["A", "B", "C"], [], [], [], []⟩

def treeC3 : PhysicalNode := .mk "A" "jA" [.mk "B" "jB" [], .mk "C" "jC" []]

/-- C3: the recursive removal of `removeWorldFromPhysic` equals the
sequential processing of the post-order flattening of the tree (children
fully removed before the node), the same for the graphical removal of
`removeWorldFromGraphic`, and on the concrete tree `A(children=[B, C])`
the backend observes the body deletions in the order `B, C, A`. -/
theorem C3_postorder_removal :
    (∀ (s : PhyState) (n : PhysicalNode),
      removeRigidBodyChildren s n = processPostRB s n.postRB) ∧
    (∀ (g : GraphState) (n : GraphicalNode),
      deleteNodeInGraphicalAgent g n = processPostNames g n.postNames) ∧
    deletedBodies (removeRigidBodyChildren sC3 treeC3).2 = ["B", "C", "A"] :=
  ⟨fun s n => removeRigidBodyChildren_eq_post n s,
   fun g n => deleteNodeInGraphicalAgent_eq_post n g,
   by decide⟩

/-! ## Claim C4: addWorld / removeWorld are the two-call compositions -/

/-- C4: `addWorld` is exactly `addWorldToPhysic` then `addWorldToGraphic`
(physics first), and `removeWorld` is exactly `removeWorldFromGraphic`
then `removeWorldFromPhysic` (graphics first), including identical failure
behaviour. -/
theorem C4_composition :
    (∀ (m : WM) (w : World),
      addWorld m w =
        Except.bind (addWorldToPhysicWM m w) (fun r => addWorldToGraphicWM r.1 r.2)) ∧
    (∀ (m : WM) (w : World),
      removeWorld m w =
        Except.bind (removeWorldFromGraphicWM m w) (fun r => removeWorldFromPhysicWM r.1 r.2)) := by
  constructor
  · intro m w
    cases hp : m.phy with
    | none => simp [addWorld, addWorldToPhysicWM, hp, Except.bind]
    | some p => simp [addWorld, addWorldToPhysicWM, hp, Except.bind]
  · intro m w
    unfold removeWorld
    cases h : removeWorldFromGraphicWM m w <;> simp [Except.bind]

/-! ## Claim C5: addFreeMarkers scalar/sequence equivalence -/

/-- C5: `addFreeMarkers(world, n)` with a single name and
`addFreeMarkers(world, [n])` with the one-element sequence produce the
same World, and in general the operation appends exactly one Marker
record per supplied name to the World's marker list. -/
theorem C5_addFreeMarkers :
    (∀ (w : World) (n : String),
      addFreeMarkers w (.single n) = addFreeMarkers w (.seq [n])) ∧
    (∀ (w : World) (a : MarkerNameArg),
      (addFreeMarkers w a).markerRecords =
        w.markerRecords ++ (normalizeNames a).map Marker.mk) :=
  ⟨fun _ _ => rfl, fun _ _ => rfl⟩

/-! ## Claim C6: default marker targets are the depth-first body names -/

/-- C6: with `bodies` omitted, `addMarkers` and `removeMarkers` target
exactly the depth-first (pre-order, declaration order) collection of the
rigid-body names of the World's physical scene — one entry per node of
the forest, hence each name exactly once as soon as the scene's body names
are distinct (which the data-model invariant guarantees). -/
theorem C6_default_targets :
    (∀ w : World, markerTargets w none = preBodiesForest w.scene.physical_scene.nodes) ∧
    (∀ w : World,
      (markerTargets w none).length = nodeCountForest w.scene.physical_scene.nodes) ∧
    (∀ w : World, (preBodiesForest w.scene.physical_scene.nodes).Nodup →
      (markerTargets w none).Nodup) := by
  refine ⟨fun w => ?_, fun w => ?_, fun w h => ?_⟩
  · simp [markerTargets, visitDFaccForest_eq]
  · simp [markerTargets, visitDFaccForest_eq, preBodiesForest_length]
  · simpa [markerTargets, visitDFaccForest_eq] using h

def wC6 : World := ⟨⟨⟨[.mk "a" "ja" [.mk "b" "jb" []], .mk "c" "jc" []], [], []⟩,
  ⟨.mk "g" [], []⟩⟩⟩

/-- C6 witness: on a two-root, three-node world the targets are the
pre-order names `a, b, c`, one per node, and distinct. -/
theorem C6_default_targets_witness :
    markerTargets wC6 none = preBodiesForest wC6.scene.physical_scene.nodes ∧
    (markerTargets wC6 none).length = nodeCountForest wC6.scene.physical_scene.nodes ∧
    (markerTargets wC6 none).Nodup :=
  ⟨C6_default_targets.1 wC6, C6_default_targets.2.1 wC6,
   C6_default_targets.2.2 wC6 (by decide)⟩

/-! ## Claim C9: graphics-side operations without a graphics agent -/

/-- C9: when no graphics agent exists (`graph` and `graph_scn` both
`None`, as after `create_graphic=False`), every graphics-side operation
returns normally with the manager, backend and World states untouched. -/
theorem C9_no_graphics_noop (m : WM) (w : World)
    (h1 : m.graphExists = false) (h2 : m.graph_scn = none) :
    addWorldToGraphicWM m w = .ok (m, w) ∧
    removeWorldFromGraphicWM m w = .ok (m, w) ∧
    (∀ bodies, addMarkersWM m w bodies = .ok (m, w)) ∧
    (∀ bodies, removeMarkersWM m w bodies = .ok (m, w)) ∧
    (∀ name t, addMarkerToSimulationWM m name t = .ok m) ∧
    (∀ name, removeMarkerFromSimulationWM m name = .ok m) := by
  refine ⟨?_, ?_, fun bodies => ?_, fun bodies => ?_, fun name t => ?_, fun name => ?_⟩ <;>
    simp [addWorldToGraphicWM, removeWorldFromGraphicWM, addMarkersWM, removeMarkersWM,
      addMarkerToSimulationWM, removeMarkerFromSimulationWM, h1, h2]

def mC9 : WM := ⟨some ⟨[("c", "RigidBody")], ["c"], ["mt"], [], ["c"], []⟩, false, none⟩

def wC9 : World := ⟨⟨⟨[.mk "b" "j" []], [⟨"mech"⟩], ["mt2"]⟩, ⟨.mk "g" [], [⟨"mk1"⟩]⟩⟩⟩

/-- C9 witness: a manager with a physics agent but no graphics agent, and
a non-trivial world. -/
theorem C9_no_graphics_noop_witness :
    addWorldToGraphicWM mC9 wC9 = .ok (mC9, wC9) ∧
    removeWorldFromGraphicWM mC9 wC9 = .ok (mC9, wC9) ∧
    addMarkersWM mC9 wC9 none = .ok (mC9, wC9) ∧
    removeMarkersWM mC9 wC9 (some ["b"]) = .ok (mC9, wC9) ∧
    addMarkerToSimulationWM mC9 "x" true = .ok mC9 ∧
    removeMarkerFromSimulationWM mC9 "x" = .ok mC9 :=
  ⟨(C9_no_graphics_noop mC9 wC9 rfl rfl).1,
   (C9_no_graphics_noop mC9 wC9 rfl rfl).2.1,
   (C9_no_graphics_noop mC9 wC9 rfl rfl).2.2.1 none,
   (C9_no_graphics_noop mC9 wC9 rfl rfl).2.2.2.1 (some ["b"]),
   (C9_no_graphics_noop mC9 wC9 rfl rfl).2.2.2.2.1 "x" true,
   (C9_no_graphics_noop mC9 wC9 rfl rfl).2.2.2.2.2 "x"⟩

/-! ## Claim C8: cleanPhy order -/

/-- Names of the components of kind `k`, in registry order. -/
def kindNames (s : PhyState) (k : String) : List String :=
  (s.components.filter (fun c => c.2 = k)).map Prod.fst

/-- Names of the components of none of the three dynamic kinds. -/
def otherKindNames (s : PhyState) : List String :=
  (s.components.filter
    (fun c => c.2 ≠ "Robot" && c.2 ≠ "RigidBody" && c.2 ≠ "Composite")).map Prod.fst

theorem PhyState.extEq {a b : PhyState} (h1 : a.components = b.components)
    (h2 : a.bodies = b.bodies) (h3 : a.materials = b.materials)
    (h4 : a.matUsedBy = b.matUsedBy) (h5 : a.ocbBodies = b.ocbBodies)
    (h6 : a.interactions = b.interactions) : a = b := by
  cases a
  cases b
  simp only [PhyState.mk.injEq]
  exact ⟨h1, h2, h3, h4, h5, h6⟩

theorem foldl_tracedDelete (names : List String) (s : PhyState) (t : List PhyOp) :
    names.foldl tracedDelete (s, t) =
      ({ s with components := s.components.filter (fun p => decide (p.1 ∉ names)) },
       t ++ names.map PhyOp.deleteComponent) := by
  induction names generalizing s t with
  | nil =>
      cases s
      simp
  | cons n ns ih =>
      rw [List.foldl_cons,
        show tracedDelete (s, t) n = (deleteComponent s n, t ++ [PhyOp.deleteComponent n]) from
          rfl,
        ih, Prod.mk.injEq]
      refine ⟨PhyState.extEq ?_ rfl rfl rfl rfl rfl, by simp⟩
      show (s.components.filter (fun p => decide (p.1 ≠ n))).filter (fun p => decide (p.1 ∉ ns))
          = s.components.filter (fun p => decide (p.1 ∉ n :: ns))
      rw [List.filter_filter]
      apply List.filter_congr
      intro p _
      by_cases h1 : p.1 = n <;> by_cases h2 : p.1 ∈ ns <;> simp [h1, h2]

theorem mem_victims_iff {comps : List (String × String)}
    (hnd : (comps.map Prod.fst).Nodup) (q : String × String → Bool)
    {p : String × String} (hp : p ∈ comps) :
    p.1 ∈ (comps.filter q).map Prod.fst ↔ q p = true := by
  constructor
  · intro hmem
    obtain ⟨c, hc, hceq⟩ := List.mem_map.mp hmem
    have hcmem := List.mem_of_mem_filter hc
    have hq := List.of_mem_filter hc
    have hcp : c = p := List.inj_on_of_nodup_map hnd hcmem hp hceq
    rwa [hcp] at hq
  · intro hq
    exact List.mem_map.mpr ⟨p, List.mem_filter.mpr ⟨hp, hq⟩, rfl⟩

/-- Deleting, by name, every component matched by `q` is the same as
filtering out the `q`-matched components, provided component names are
unique. -/
theorem filter_victims (comps : List (String × String))
    (hnd : (comps.map Prod.fst).Nodup) (q : String × String → Bool) :
    comps.filter (fun p => decide (p.1 ∉ (comps.filter q).map Prod.fst))
      = comps.filter (fun p => !q p) := by
  apply List.filter_congr
  intro p hp
  have hiff := mem_victims_iff hnd q hp
  by_cases hq : q p = true
  · simp [hq, hiff.mpr hq]
  · have : p.1 ∉ (comps.filter q).map Prod.fst := fun hmem => hq (hiff.mp hmem)
    simp [this, hq]

theorem filter_filter_kind (c : List (String × String)) (P : String × String → Bool)
    (k : String) (hPk : ∀ x : String × String, x.2 = k → P x = true) :
    (c.filter P).filter (fun x => decide (x.2 = k)) = c.filter (fun x => decide (x.2 = k)) := by
  rw [List.filter_filter]
  apply List.filter_congr
  intro x _
  by_cases hk : x.2 = k
  · simp [hk, hPk x hk]
  · simp [hk]

theorem nodup_map_fst_filter (c : List (String × String))
    (hnd : (c.map Prod.fst).Nodup) (P : String × String → Bool) :
    ((c.filter P).map Prod.fst).Nodup :=
  hnd.sublist ((List.filter_sublist (p := P) c).map Prod.fst)

theorem filter_notMem_selfNames (c : List (String × String)) :
    c.filter (fun p => decide (p.1 ∉ c.map Prod.fst)) = [] := by
  rw [List.filter_eq_nil_iff]
  intro p hp
  simp only [decide_eq_true_eq, Decidable.not_not, List.mem_map]
  exact ⟨p, hp, rfl⟩

/-- One kind pass of `cleanPhy`: deleting, by name, every component of a
kind filters that kind out of the registry and emits one deletion call per
victim. -/
theorem kindPass_eq (ps : PhyState) (pt : List PhyOp) (kind : String)
    (hnd : (ps.components.map Prod.fst).Nodup) :
    List.foldl tracedDelete (ps, pt)
        ((ps.components.filter (fun c => decide (c.2 = kind))).map Prod.fst)
      = ({ ps with components := ps.components.filter (fun x => !decide (x.2 = kind)) },
         pt ++ ((ps.components.filter (fun c => decide (c.2 = kind))).map Prod.fst).map
           PhyOp.deleteComponent) := by
  rw [foldl_tracedDelete, filter_victims ps.components hnd (fun c => decide (c.2 = kind))]

/-- C8 (amended): with the physics agent present and component names
unique, `cleanPhy` keeps the agent alive and resets it, but in the order
scene-clear FIRST, then the Robot, RigidBody and Composite component
deletions (in that kind order), then the remaining components — not the
order the claim states. -/
theorem C8_cleanPhy_actual_order (m : WM) (s : PhyState) (h : m.phy = some s)
    (hnd : (s.components.map Prod.fst).Nodup) :
    cleanPhy m =
      ({ m with phy := some { sceneClean s with components := [] } },
       PhyOp.sceneClean ::
         ((kindNames s "Robot" ++ kindNames s "RigidBody" ++ kindNames s "Composite"
           ++ otherKindNames s).map PhyOp.deleteComponent)) := by
  have hnd1 : ((sceneClean s).components.map Prod.fst).Nodup := hnd
  have hnd2 := nodup_map_fst_filter (sceneClean s).components hnd1
    (fun x => !decide (x.2 = "Robot"))
  have hnd3 := nodup_map_fst_filter _ hnd2 (fun x => !decide (x.2 = "RigidBody"))
  simp only [cleanPhy, h]
  rw [List.foldl_cons, List.foldl_cons, List.foldl_cons, List.foldl_nil]
  dsimp only
  rw [kindPass_eq _ _ "Robot" hnd1]
  dsimp only
  rw [kindPass_eq _ _ "RigidBody" hnd2]
  dsimp only
  rw [kindPass_eq _ _ "Composite" hnd3]
  dsimp only
  simp only [getComponentNames]
  rw [foldl_tracedDelete]
  dsimp only
  have hV2 : List.filter (fun c => decide (c.2 = "RigidBody"))
      (List.filter (fun x => !decide (x.2 = "Robot")) (sceneClean s).components)
      = List.filter (fun c => decide (c.2 = "RigidBody")) (sceneClean s).components :=
    filter_filter_kind _ _ "RigidBody" (fun x hx => by simp [hx])
  have hV3a : List.filter (fun c => decide (c.2 = "Composite"))
      (List.filter (fun x => !decide (x.2 = "RigidBody"))
        (List.filter (fun x => !decide (x.2 = "Robot")) (sceneClean s).components))
      = List.filter (fun c => decide (c.2 = "Composite"))
        (List.filter (fun x => !decide (x.2 = "Robot")) (sceneClean s).components) :=
    filter_filter_kind _ _ "Composite" (fun x hx => by simp [hx])
  have hV3b : List.filter (fun c => decide (c.2 = "Composite"))
      (List.filter (fun x => !decide (x.2 = "Robot")) (sceneClean s).components)
      = List.filter (fun c => decide (c.2 = "Composite")) (sceneClean s).components :=
    filter_filter_kind _ _ "Composite" (fun x hx => by simp [hx])
  have hc3 : List.filter (fun x => !decide (x.2 = "Composite"))
      (List.filter (fun x => !decide (x.2 = "RigidBody"))
        (List.filter (fun x => !decide (x.2 = "Robot")) (sceneClean s).components))
      = (sceneClean s).components.filter
          (fun c => c.2 ≠ "Robot" && c.2 ≠ "RigidBody" && c.2 ≠ "Composite") := by
    rw [List.filter_filter, List.filter_filter]
    apply List.filter_congr
    intro x _
    by_cases h1 : x.2 = "Robot" <;> by_cases h2 : x.2 = "RigidBody" <;>
      by_cases h3 : x.2 = "Composite" <;> simp [h1, h2, h3]
  rw [hV2, hV3a, hV3b, hc3, filter_notMem_selfNames]
  simp [kindNames, otherKindNames, sceneClean, List.map_append, List.append_assoc]

def sC8 : PhyState := ⟨[("c1", "Other"), ("r1", "Robot")], ["b"], ["mt"], [], [], []⟩

def mC8 : WM := ⟨some sC8, false, none⟩

/-- C8 counterexample: on a registry holding one `Robot` and one `Other`
component, the call order the claim states (kind deletions, remaining
components, scene clear last) differs from what `cleanPhy` actually emits
(scene clear first). -/
theorem C8_cleanPhy_counterexample :
    (cleanPhy mC8).2 ≠ (cleanPhyClaimedOrder mC8).2 := by decide

def sC8w : PhyState :=
  ⟨[("r1", "Robot"), ("rb1", "RigidBody"), ("cp1", "Composite"), ("x1", "Mechanism")],
   ["b1"], ["m1"], [], ["ob"], []⟩

def mC8w : WM := ⟨some sC8w, false, none⟩

/-- C8 witness: the amended order theorem applied to a registry with one
component of each kind. -/
theorem C8_cleanPhy_actual_order_witness :
    cleanPhy mC8w =
      ({ mC8w with phy := some { sceneClean sC8w with components := [] } },
       PhyOp.sceneClean ::
         ((kindNames sC8w "Robot" ++ kindNames sC8w "RigidBody" ++ kindNames sC8w "Composite"
           ++ otherKindNames sC8w).map PhyOp.deleteComponent)) :=
  C8_cleanPhy_actual_order mC8w sC8w rfl (by decide)

/-! ## Claim C7: marker guard behaviour and idempotency -/

theorem removeMarkerFold_mem {targets : List String} {g : GraphState} {x : String}
    (hx : x ∈ (targets.foldl removeMarkerStep g).markerLabels) :
    x ∈ g.markerLabels ∧ x ∉ targets := by
  induction targets generalizing g with
  | nil => exact ⟨hx, by simp⟩
  | cons t ts ih =>
      rw [List.foldl_cons] at hx
      obtain ⟨h1, h2⟩ := ih hx
      unfold removeMarkerStep at h1
      by_cases ht : t ∈ g.markerLabels
      · rw [if_pos ht] at h1
        have hmem := List.mem_of_mem_filter h1
        have hne := List.of_mem_filter h1
        simp only [decide_eq_true_eq] at hne
        exact ⟨hmem, by simp [h2, hne]⟩
      · rw [if_neg ht] at h1
        refine ⟨h1, ?_⟩
        simp only [List.mem_cons, not_or]
        exact ⟨fun e => ht (e ▸ h1), h2⟩

theorem removeMarkerFold_noop {targets : List String} {g : GraphState}
    (h : ∀ t ∈ targets, t ∉ g.markerLabels) :
    targets.foldl removeMarkerStep g = g := by
  induction targets with
  | nil => rfl
  | cons t ts ih =>
      rw [List.foldl_cons,
        show removeMarkerStep g t = g from by
          unfold removeMarkerStep
          rw [if_neg (h t (by simp))]]
      exact ih fun t' ht' => h t' (by simp [ht'])

theorem addMarkersFold_noop {targets : List String} {g : GraphState} {w : World}
    (h : ∀ t ∈ targets, t ∈ g.markerLabels) :
    targets.foldl
        (fun wc b => if b ∈ g.markerLabels then wc else addFreeMarkers wc (.single b)) w
      = w := by
  induction targets generalizing w with
  | nil => rfl
  | cons t ts ih =>
      rw [List.foldl_cons, if_pos (h t (by simp))]
      exact ih fun t' ht' => h t' (by simp [ht'])

theorem WM_update_graph_scn_self {m : WM} {g : GraphState} (h : m.graph_scn = some g) :
    ({ m with graph_scn := some g } : WM) = m := by
  cases m
  simp only at h
  rw [h]

/-- C7 (amended): `removeMarkers` on names with no backend marker, and
`addMarkers` on names whose markers all exist, are no-ops that do not
raise; `removeMarkers` is idempotent; `addMarkers` never mutates the
manager/backend state at all — but it appends Marker records to the World
for names absent from the backend, so repeating it on such names is not
idempotent on the World (see the counterexample). -/
theorem C7_marker_guards :
    (∀ (m : WM) (w : World) (g : GraphState) (bodies : Option (List String)),
      m.graph_scn = some g →
      (∀ t ∈ markerTargets w bodies, t ∉ g.markerLabels) →
      removeMarkersWM m w bodies = .ok (m, w)) ∧
    (∀ (m : WM) (w : World) (g : GraphState) (bodies : Option (List String)),
      m.graph_scn = some g →
      (∀ t ∈ markerTargets w bodies, t ∈ g.markerLabels) →
      addMarkersWM m w bodies = .ok (m, w)) ∧
    (∀ (m : WM) (w : World) (bodies : Option (List String)),
      Except.bind (removeMarkersWM m w bodies) (fun r => removeMarkersWM r.1 r.2 bodies)
        = removeMarkersWM m w bodies) ∧
    (∀ (m : WM) (w : World) (bodies : Option (List String)),
      ∃ w', addMarkersWM m w bodies = .ok (m, w')) := by
  refine ⟨fun m w g bodies hg h => ?_, fun m w g bodies hg h => ?_,
    fun m w bodies => ?_, fun m w bodies => ?_⟩
  · simp only [removeMarkersWM, hg, removeMarkerFold_noop h, WM_update_graph_scn_self hg]
  · simp only [addMarkersWM, hg, addMarkersFold_noop h]
  · cases hg : m.graph_scn with
    | none => simp [removeMarkersWM, hg, Except.bind]
    | some g =>
        simp only [removeMarkersWM, hg, Except.bind]
        have hout : ∀ t ∈ markerTargets w bodies,
            t ∉ ((markerTargets w bodies).foldl removeMarkerStep g).markerLabels :=
          fun t ht hmem => (removeMarkerFold_mem hmem).2 ht
        simp only [removeMarkerFold_noop hout]
  · cases hg : m.graph_scn with
    | none => exact ⟨w, by simp [addMarkersWM, hg]⟩
    | some g =>
        exact ⟨(markerTargets w bodies).foldl
          (fun wc b => if b ∈ g.markerLabels then wc else addFreeMarkers wc (.single b)) w,
          by simp [addMarkersWM, hg]⟩

def mC7 : WM := ⟨some ⟨[], [], [], [], [], []⟩, true, some ⟨[], []⟩⟩

def wC7 : World := ⟨⟨⟨[.mk "b1" "j1" []], [], []⟩, ⟨.mk "r" [], []⟩⟩⟩

/-- C7 counterexample: with a graphics scene holding no markers, calling
`addMarkers(world)` twice is NOT the same as calling it once — the second
call appends a duplicate Marker record for "b1" to the World, so the
claimed idempotency fails. -/
theorem C7_addMarkers_not_idempotent :
    Except.bind (addMarkersWM mC7 wC7 none) (fun r => addMarkersWM r.1 r.2 none)
      ≠ addMarkersWM mC7 wC7 none := fun hcontra =>
  absurd
    (congrArg
      (fun e : Except PyErr (WM × World) =>
        match e with
        | .ok r => r.2.scene.graphical_scene.markers.length
        | .error _ => 0)
      hcontra)
    (by decide)

def gC7v : GraphState := ⟨[], ["lbl"]⟩

def mC7v : WM := ⟨none, true, some gC7v⟩

def wC7v : World := ⟨⟨⟨[.mk "nope" "j" []], [], []⟩, ⟨.mk "r" [], []⟩⟩⟩

def wC7w : World := ⟨⟨⟨[.mk "lbl" "j" []], [], []⟩, ⟨.mk "r" [], []⟩⟩⟩

/-- C7 witness: the guard theorem applied to a backend with marker label
"lbl": removing the unlabelled "nope" is a no-op, adding the already
labelled "lbl" is a no-op, removal is idempotent, and `addMarkers` leaves
the manager intact. -/
theorem C7_marker_guards_witness :
    removeMarkersWM mC7v wC7v none = .ok (mC7v, wC7v) ∧
    addMarkersWM mC7v wC7w none = .ok (mC7v, wC7w) ∧
    Except.bind (removeMarkersWM mC7v wC7w none)
      (fun r => removeMarkersWM r.1 r.2 none) = removeMarkersWM mC7v wC7w none ∧
    ∃ w', addMarkersWM mC7v wC7v none = .ok (mC7v, w') :=
  ⟨C7_marker_guards.1 mC7v wC7v gC7v none rfl (by decide),
   C7_marker_guards.2.1 mC7v wC7w gC7v none rfl (by decide),
   C7_marker_guards.2.2.1 mC7v wC7w none,
   C7_marker_guards.2.2.2 mC7v wC7v none⟩

/-! ## Claim C10: removeWorldFromGraphic and the first root node -/

mutual

theorem delNodePhy_ocb_mem (n : PhysicalNode) (p : PhyState) (b : String)
    (hb : b ∈ p.ocbBodies) (hnot : b ∉ n.preBodies) :
    b ∈ (deleteNodeInPhysicalAgent p n).ocbBodies := by
  cases n with
  | mk rb ij cs =>
      have hne : b ≠ rb := fun e => hnot (by simp [PhysicalNode.preBodies, e])
      have hcs : b ∉ preBodiesForest cs :=
        fun hmem => hnot (by simp [PhysicalNode.preBodies, hmem])
      have h1 := delNodePhyForest_ocb_mem cs p b hb hcs
      simp only [deleteNodeInPhysicalAgent]
      exact (List.mem_erase_of_ne hne).mpr h1

theorem delNodePhyForest_ocb_mem (l : List PhysicalNode) (p : PhyState) (b : String)
    (hb : b ∈ p.ocbBodies) (hnot : b ∉ preBodiesForest l) :
    b ∈ (deleteNodePhyForest p l).ocbBodies := by
  cases l with
  | nil => exact hb
  | cons n ns =>
      have h1 : b ∉ n.preBodies := fun hmem => hnot (by simp [preBodiesForest, hmem])
      have h2 : b ∉ preBodiesForest ns := fun hmem => hnot (by simp [preBodiesForest, hmem])
      exact delNodePhyForest_ocb_mem ns _ b (delNodePhy_ocb_mem n p b hb h1) h2

end

mutual

theorem delNodePhy_int_mem (n : PhysicalNode) (p : PhyState) (i : String × String)
    (hi : i ∈ p.interactions) (h1 : i.1 ∉ n.preBodies) (h2 : i.2 ∉ n.preBodies) :
    i ∈ (deleteNodeInPhysicalAgent p n).interactions := by
  cases n with
  | mk rb ij cs =>
      have hne1 : i.1 ≠ rb := fun e => h1 (by simp [PhysicalNode.preBodies, e])
      have hne2 : i.2 ≠ rb := fun e => h2 (by simp [PhysicalNode.preBodies, e])
      have hcs1 : i.1 ∉ preBodiesForest cs :=
        fun hmem => h1 (by simp [PhysicalNode.preBodies, hmem])
      have hcs2 : i.2 ∉ preBodiesForest cs :=
        fun hmem => h2 (by simp [PhysicalNode.preBodies, hmem])
      have hrec := delNodePhyForest_int_mem cs p i hi hcs1 hcs2
      simp only [deleteNodeInPhysicalAgent]
      exact List.mem_filter.mpr ⟨hrec, by simp [hne1, hne2]⟩

theorem delNodePhyForest_int_mem (l : List PhysicalNode) (p : PhyState) (i : String × String)
    (hi : i ∈ p.interactions) (h1 : i.1 ∉ preBodiesForest l) (h2 : i.2 ∉ preBodiesForest l) :
    i ∈ (deleteNodePhyForest p l).interactions := by
  cases l with
  | nil => exact hi
  | cons n ns =>
      have h1a : i.1 ∉ n.preBodies := fun hmem => h1 (by simp [preBodiesForest, hmem])
      have h1b : i.1 ∉ preBodiesForest ns := fun hmem => h1 (by simp [preBodiesForest, hmem])
      have h2a : i.2 ∉ n.preBodies := fun hmem => h2 (by simp [preBodiesForest, hmem])
      have h2b : i.2 ∉ preBodiesForest ns := fun hmem => h2 (by simp [preBodiesForest, hmem])
      exact delNodePhyForest_int_mem ns _ i (delNodePhy_int_mem n p i hi h1a h2a) h1b h2b

end

/-- C10: with a graphics scene present, `removeWorldFromGraphic` applies
its interaction/body-unregistration pass exactly to the subtree rooted at
the FIRST root node of the physical scene: any `ocb`-registered body and
any interaction not involving that subtree's bodies survives; and when the
physical scene has no root nodes at all, the call fails with an index
error instead of skipping. -/
theorem C10_first_root_only (m : WM) (w : World) (p : PhyState) (g : GraphState)
    (hp : m.phy = some p) (hg : m.graph_scn = some g) :
    (w.scene.physical_scene.nodes = [] →
      removeWorldFromGraphicWM m w = .error .indexError) ∧
    (∀ n0 rest, w.scene.physical_scene.nodes = n0 :: rest →
      ∃ m', removeWorldFromGraphicWM m w = .ok (m', w) ∧
        m'.phy = some (deleteNodeInPhysicalAgent p n0) ∧
        (∀ b, b ∈ p.ocbBodies → b ∉ n0.preBodies →
          b ∈ (deleteNodeInPhysicalAgent p n0).ocbBodies) ∧
        (∀ i, i ∈ p.interactions → i.1 ∉ n0.preBodies → i.2 ∉ n0.preBodies →
          i ∈ (deleteNodeInPhysicalAgent p n0).interactions)) := by
  constructor
  · intro hn
    simp [removeWorldFromGraphicWM, hp, hg, hn]
  · intro n0 rest hn
    refine ⟨{ m with phy := some (deleteNodeInPhysicalAgent p n0), graph_scn := some (removeWorldMarkers (deleteNodeInGraphicalAgent g w.scene.graphical_scene.root_node).1 w.scene.graphical_scene.markers) }, ?_, rfl,
      fun b hb hnb => delNodePhy_ocb_mem n0 p b hb hnb,
      fun i hi h1 h2 => delNodePhy_int_mem n0 p i hi h1 h2⟩
    simp [removeWorldFromGraphicWM, hp, hg, hn]

def pC10 : PhyState := ⟨[], [], [], [], ["r1", "r2"], [("r1", "r2"), ("r2", "x")]⟩

def gC10 : GraphState := ⟨["groot"], []⟩

def mC10 : WM := ⟨some pC10, true, some gC10⟩

def wC10 : World :=
  ⟨⟨⟨[.mk "r1" "j1" [], .mk "r2" "j2" []], [], []⟩, ⟨.mk "groot" [], []⟩⟩⟩

def wC10e : World := ⟨⟨⟨[], [], []⟩, ⟨.mk "groot" [], []⟩⟩⟩

/-- C10 witness: on a two-root world only the first root's subtree is
unregistered ("r2", under the second root, stays registered and its
interaction with "x" survives), and on a rootless world the call raises
the index error. -/
theorem C10_first_root_only_witness :
    removeWorldFromGraphicWM mC10 wC10e = .error .indexError ∧
    "r2" ∈ (deleteNodeInPhysicalAgent pC10 (PhysicalNode.mk "r1" "j1" [])).ocbBodies ∧
    ("r2", "x") ∈ (deleteNodeInPhysicalAgent pC10 (PhysicalNode.mk "r1" "j1" [])).interactions := by
  refine ⟨(C10_first_root_only mC10 wC10e pC10 gC10 rfl rfl).1 rfl, ?_, ?_⟩
  · obtain ⟨m', -, -, hocb, -⟩ :=
      (C10_first_root_only mC10 wC10 pC10 gC10 rfl rfl).2 (PhysicalNode.mk "r1" "j1" [])
        [PhysicalNode.mk "r2" "j2" []] rfl
    exact hocb "r2" (by decide) (by decide)
  · obtain ⟨m', -, -, -, hint⟩ :=
      (C10_first_root_only mC10 wC10 pC10 gC10 rfl rfl).2 (PhysicalNode.mk "r1" "j1" [])
        [PhysicalNode.mk "r2" "j2" []] rfl
    exact hint ("r2", "x") (by decide) (by decide) (by decide)

/-! ## Claim C2: add followed by remove -/

theorem matFilterStep_of_disjoint (sceneMats : List String) (fuel i : Nat) (l : List String)
    (h : ∀ x ∈ l, x ∉ sceneMats) : matFilterStep sceneMats fuel i l = l := by
  induction fuel generalizing i with
  | zero => rfl
  | succ f ih =>
      unfold matFilterStep
      by_cases hi : i < l.length
      · rw [if_pos hi]
        have hmem : l.getD i "" ∈ l := by
          rw [List.getD_eq_getElem l "" hi]
          exact List.getElem_mem hi
        rw [if_neg (h _ hmem)]
        exact ih (i + 1)
      · rw [if_neg hi]

theorem matFilterLoop_of_disjoint (sceneMats : List String) (l : List String)
    (h : ∀ x ∈ l, x ∉ sceneMats) : matFilterLoop sceneMats l = l :=
  matFilterStep_of_disjoint sceneMats l.length 0 l h

/-- Sequential first-occurrence removals, the cumulative effect of the
`scene.removeRigidBody` calls of a removal pass. -/
def eraseList (l : List String) (names : List String) : List String :=
  names.foldl List.erase l

theorem eraseList_append (l : List String) (n1 n2 : List String) :
    eraseList l (n1 ++ n2) = eraseList (eraseList l n1) n2 :=
  List.foldl_append _ _ _ _

theorem eraseList_restore (names : List String) :
    ∀ (l₂ l₁ : List String), names.Perm l₂ → l₂.Nodup → (∀ a ∈ l₂, a ∉ l₁) →
      eraseList (l₁ ++ l₂) names = l₁ := by
  induction names with
  | nil =>
      intro l₂ l₁ hp _ _
      rw [List.perm_nil.mp hp.symm]
      simp [eraseList]
  | cons n ns ih =>
      intro l₂ l₁ hp hnd hdisj
      have hn : n ∈ l₂ := hp.subset (List.mem_cons_self n ns)
      have hrest : ns.Perm (l₂.erase n) := (List.cons_perm_iff_perm_erase.mp hp).2
      show List.foldl List.erase (l₁ ++ l₂) (n :: ns) = l₁
      rw [List.foldl_cons, List.erase_append_right _ (hdisj n hn)]
      exact ih (l₂.erase n) l₁ hrest (hnd.erase n)
        (fun a ha => hdisj a (List.mem_of_mem_erase ha))

mutual

theorem postBodies_perm_preBodies (n : PhysicalNode) :
    n.postBodies.Perm n.preBodies := by
  cases n with
  | mk rb ij cs =>
      show List.Perm (postBodiesForest cs ++ [rb]) (rb :: preBodiesForest cs)
      exact List.perm_append_comm.trans
        (List.Perm.append_left [rb] (postBodiesForest_perm_preBodies cs))

theorem postBodiesForest_perm_preBodies (l : List PhysicalNode) :
    (postBodiesForest l).Perm (preBodiesForest l) := by
  cases l with
  | nil => exact List.Perm.refl []
  | cons n ns =>
      exact (postBodies_perm_preBodies n).append (postBodiesForest_perm_preBodies ns)

end

theorem guardedDelete_fst (p : PhyState × List PhyOp) (n : String) :
    (guardedDelete p n).1 = deleteComponent p.1 n := by
  unfold guardedDelete
  by_cases h : n ∈ getComponentNames p.1
  · rw [if_pos h]
  · rw [if_neg h]
    have hf : p.1.components.filter (fun q => decide (q.1 ≠ n)) = p.1.components := by
      rw [List.filter_eq_self]
      intro a ha
      simp only [decide_eq_true_eq]
      intro e
      exact h (e ▸ List.mem_map.mpr ⟨a, ha, rfl⟩)
    exact (PhyState.extEq hf.symm rfl rfl rfl rfl rfl)

theorem foldl_guardedDelete_fst (names : List String) (p : PhyState × List PhyOp) :
    (names.foldl guardedDelete p).1 =
      { p.1 with components := p.1.components.filter (fun q => decide (q.1 ∉ names)) } := by
  induction names generalizing p with
  | nil =>
      refine PhyState.extEq ?_ rfl rfl rfl rfl rfl
      refine (List.filter_eq_self.mpr fun a _ => ?_).symm
      simp
  | cons n ns ih =>
      rw [List.foldl_cons, ih, guardedDelete_fst]
      refine PhyState.extEq ?_ rfl rfl rfl rfl rfl
      show (p.1.components.filter (fun q => decide (q.1 ≠ n))).filter
            (fun q => decide (q.1 ∉ ns))
          = p.1.components.filter (fun q => decide (q.1 ∉ n :: ns))
      rw [List.filter_filter]
      apply List.filter_congr
      intro q _
      by_cases h1 : q.1 = n <;> by_cases h2 : q.1 ∈ ns <;> simp [h1, h2]

theorem removeRigidBodyNodeOps_state (s : PhyState) (rb ij : String) :
    (removeRigidBodyNodeOps s rb ij).1 =
      { s with
        bodies := s.bodies.erase rb
        components :=
          s.components.filter (fun q => decide (q.1 ∉ [rb, rb ++ ".comp", ij])) } := by
  unfold removeRigidBodyNodeOps
  rw [foldl_guardedDelete_fst]
  by_cases hb : rb ∈ s.bodies
  · rw [if_pos hb]
    rfl
  · rw [if_neg hb]
    refine PhyState.extEq rfl ?_ rfl rfl rfl rfl
    exact (List.erase_of_not_mem hb).symm

mutual

theorem removeRigidBodyChildren_state (n : PhysicalNode) (s : PhyState) :
    (removeRigidBodyChildren s n).1 =
      { s with
        bodies := eraseList s.bodies n.postBodies
        components := s.components.filter (fun q => decide (q.1 ∉ n.delNames)) } := by
  cases n with
  | mk rb ij cs =>
      simp only [removeRigidBodyChildren]
      rw [removeRigidBodyNodeOps_state, removeRigidBodyForest_state cs s]
      refine PhyState.extEq ?_ ?_ rfl rfl rfl rfl
      · show ((s.components.filter (fun q => decide (q.1 ∉ delNamesForest cs))).filter
            (fun q => decide (q.1 ∉ [rb, rb ++ ".comp", ij])))
          = s.components.filter
              (fun q => decide (q.1 ∉ PhysicalNode.delNames (.mk rb ij cs)))
        rw [List.filter_filter]
        apply List.filter_congr
        intro q _
        by_cases h1 : q.1 ∈ delNamesForest cs <;>
          by_cases h2 : q.1 ∈ [rb, rb ++ ".comp", ij] <;>
          simp [h1, h2, PhysicalNode.delNames, List.mem_append]
      · show (eraseList s.bodies (postBodiesForest cs)).erase rb
            = eraseList s.bodies (PhysicalNode.postBodies (.mk rb ij cs))
        rw [show PhysicalNode.postBodies (.mk rb ij cs) = postBodiesForest cs ++ [rb] from rfl,
          eraseList_append]
        rfl

theorem removeRigidBodyForest_state (l : List PhysicalNode) (s : PhyState) :
    (removeRigidBodyForest s l).1 =
      { s with
        bodies := eraseList s.bodies (postBodiesForest l)
        components := s.components.filter (fun q => decide (q.1 ∉ delNamesForest l)) } := by
  cases l with
  | nil =>
      refine PhyState.extEq ?_ rfl rfl rfl rfl rfl
      refine (List.filter_eq_self.mpr fun a _ => ?_).symm
      simp [delNamesForest]
  | cons n ns =>
      simp only [removeRigidBodyForest]
      rw [removeRigidBodyForest_state ns, removeRigidBodyChildren_state n s]
      refine PhyState.extEq ?_ ?_ rfl rfl rfl rfl
      · show ((s.components.filter (fun q => decide (q.1 ∉ n.delNames))).filter
            (fun q => decide (q.1 ∉ delNamesForest ns)))
          = s.components.filter (fun q => decide (q.1 ∉ delNamesForest (n :: ns)))
        rw [List.filter_filter]
        apply List.filter_congr
        intro q _
        by_cases h1 : q.1 ∈ n.delNames <;> by_cases h2 : q.1 ∈ delNamesForest ns <;>
          simp [h1, h2, delNamesForest, List.mem_append]
      · show eraseList (eraseList s.bodies n.postBodies) (postBodiesForest ns)
            = eraseList s.bodies (postBodiesForest (n :: ns))
        rw [show postBodiesForest (n :: ns) = n.postBodies ++ postBodiesForest ns from rfl,
          eraseList_append]

end

mutual

theorem mem_delNames_iff (n : PhysicalNode) (x : String) :
    x ∈ n.delNames ↔ x ∈ n.nodeComps.map Prod.fst := by
  cases n with
  | mk rb ij cs =>
      simp only [PhysicalNode.delNames, PhysicalNode.nodeComps, List.mem_append,
        List.mem_cons, List.map_cons, List.not_mem_nil, or_false,
        mem_delNamesForest_iff cs x]
      tauto

theorem mem_delNamesForest_iff (l : List PhysicalNode) (x : String) :
    x ∈ delNamesForest l ↔ x ∈ (nodeCompsForest l).map Prod.fst := by
  cases l with
  | nil => simp [delNamesForest, nodeCompsForest]
  | cons n ns =>
      simp only [delNamesForest, nodeCompsForest, List.map_append, List.mem_append,
        mem_delNames_iff n x, mem_delNamesForest_iff ns x]

end

theorem foldl_tracedDelete_mech (mechs : List Mechanism) (s : PhyState) (t : List PhyOp) :
    mechs.foldl (fun p m => tracedDelete p m.name) (s, t) =
      ({ s with
          components := s.components.filter
            (fun p => decide (p.1 ∉ mechs.map Mechanism.name)) },
       t ++ (mechs.map Mechanism.name).map PhyOp.deleteComponent) := by
  rw [← List.foldl_map Mechanism.name tracedDelete mechs (s, t), foldl_tracedDelete]

/-- Component names the deserialization of a physical scene registers. -/
def addedCompNames (ps : PhysicalScene) : List String :=
  (nodeCompsForest ps.nodes).map Prod.fst ++ ps.mechanisms.map Mechanism.name

theorem addWorldToPhysicPhy_state (s : PhyState) (w : World)
    (hMat : ∀ x ∈ w.scene.physical_scene.contact_materials, x ∉ s.materials) :
    (addWorldToPhysicPhy s w).1 =
      { s with
        bodies := s.bodies ++ preBodiesForest w.scene.physical_scene.nodes
        components := s.components ++ nodeCompsForest w.scene.physical_scene.nodes
          ++ w.scene.physical_scene.mechanisms.map (fun m => (m.name, "Mechanism"))
        materials := s.materials ++ w.scene.physical_scene.contact_materials } := by
  unfold addWorldToPhysicPhy deserializeWorld
  dsimp only
  rw [matFilterLoop_of_disjoint _ _ hMat]

/-- C2 (amended): adding a World (fresh, internally distinct names) and
immediately removing it restores the components, bodies, body-material
references and connector registries exactly — but the contact-material
list comes back as the pre-add materials MINUS those not referenced by any
remaining body: the final `removeUnusedContactMaterials` cleanup purges
unused materials, including pre-existing ones the World never touched. -/
theorem C2_add_remove_registry (s : PhyState) (w : World)
    (hComp : ∀ x ∈ addedCompNames w.scene.physical_scene, x ∉ getComponentNames s)
    (hBody : ∀ b ∈ preBodiesForest w.scene.physical_scene.nodes, b ∉ s.bodies)
    (hBodyNd : (preBodiesForest w.scene.physical_scene.nodes).Nodup)
    (hMat : ∀ x ∈ w.scene.physical_scene.contact_materials, x ∉ s.materials)
    (hMatU : ∀ x ∈ w.scene.physical_scene.contact_materials, ∀ bm ∈ s.matUsedBy, bm.2 ≠ x) :
    (removeWorldFromPhysicPhy (addWorldToPhysicPhy s w).1 (addWorldToPhysicPhy s w).2).1 =
      { s with
        materials := s.materials.filter
          (fun mt => s.bodies.any (fun b => decide ((b, mt) ∈ s.matUsedBy))) } := by
  have hA2 : (addWorldToPhysicPhy s w).2 = w.setContactMaterials [] := rfl
  unfold removeWorldFromPhysicPhy
  rw [hA2]
  dsimp only [World.setContactMaterials]
  rw [addWorldToPhysicPhy_state s w hMat]
  rw [foldl_tracedDelete_mech]
  dsimp only
  rw [removeRigidBodyForest_state]
  unfold removeUnusedContactMaterials
  dsimp only
  have hbodies : eraseList
      (s.bodies ++ preBodiesForest w.scene.physical_scene.nodes)
      (postBodiesForest w.scene.physical_scene.nodes) = s.bodies :=
    eraseList_restore _ _ _
      (postBodiesForest_perm_preBodies w.scene.physical_scene.nodes) hBodyNd hBody
  rw [hbodies]
  refine PhyState.extEq ?_ rfl ?_ rfl rfl rfl
  · show (((s.components ++ nodeCompsForest w.scene.physical_scene.nodes
        ++ w.scene.physical_scene.mechanisms.map (fun m => (m.name, "Mechanism"))).filter
          (fun p => decide (p.1 ∉ w.scene.physical_scene.mechanisms.map Mechanism.name))).filter
            (fun q => decide (q.1 ∉ delNamesForest w.scene.physical_scene.nodes)))
        = s.components
    simp only [List.filter_append]
    have h1 : s.components.filter
        (fun p => decide (p.1 ∉ w.scene.physical_scene.mechanisms.map Mechanism.name))
        = s.components := by
      rw [List.filter_eq_self]
      intro a ha
      simp only [decide_eq_true_eq]
      intro hmem
      exact hComp a.1 (List.mem_append.mpr (Or.inr hmem)) (List.mem_map.mpr ⟨a, ha, rfl⟩)
    have h2 : s.components.filter
        (fun q => decide (q.1 ∉ delNamesForest w.scene.physical_scene.nodes))
        = s.components := by
      rw [List.filter_eq_self]
      intro a ha
      simp only [decide_eq_true_eq]
      intro hmem
      exact hComp a.1
        (List.mem_append.mpr (Or.inl ((mem_delNamesForest_iff _ _).mp hmem)))
        (List.mem_map.mpr ⟨a, ha, rfl⟩)
    have h3 : ((nodeCompsForest w.scene.physical_scene.nodes).filter
        (fun p => decide (p.1 ∉ w.scene.physical_scene.mechanisms.map Mechanism.name))).filter
          (fun q => decide (q.1 ∉ delNamesForest w.scene.physical_scene.nodes)) = [] := by
      rw [List.filter_eq_nil_iff]
      intro q hq
      have hqC := List.mem_of_mem_filter hq
      simp only [decide_eq_true_eq, Decidable.not_not]
      exact (mem_delNamesForest_iff _ _).mpr (List.mem_map.mpr ⟨q, hqC, rfl⟩)
    have h4 : (w.scene.physical_scene.mechanisms.map (fun m => (m.name, "Mechanism"))).filter
        (fun p => decide (p.1 ∉ w.scene.physical_scene.mechanisms.map Mechanism.name)) = [] := by
      rw [List.filter_eq_nil_iff]
      intro q hq
      obtain ⟨mc, hmc, hmceq⟩ := List.mem_map.mp hq
      simp only [decide_eq_true_eq, Decidable.not_not]
      exact List.mem_map.mpr ⟨mc, hmc, by rw [← hmceq]⟩
    rw [h1, h2, h3, h4, List.filter_nil, List.append_nil, List.append_nil]
  · show ((s.materials ++ w.scene.physical_scene.contact_materials).filter
        (fun mt => s.bodies.any (fun b => decide ((b, mt) ∈ s.matUsedBy))))
      = s.materials.filter (fun mt => s.bodies.any (fun b => decide ((b, mt) ∈ s.matUsedBy)))
    rw [List.filter_append]
    have hwm : (w.scene.physical_scene.contact_materials).filter
        (fun mt => s.bodies.any (fun b => decide ((b, mt) ∈ s.matUsedBy))) = [] := by
      rw [List.filter_eq_nil_iff]
      intro x hx
      intro hany
      obtain ⟨b, hb, hmem⟩ := List.any_eq_true.mp hany
      rw [decide_eq_true_eq] at hmem
      exact hMatU x hx (b, x) hmem rfl
    rw [hwm, List.append_nil]

def sC2zero : PhyState := ⟨[], [], [], [], [], []⟩

def sC2 : PhyState := ⟨[], [], ["mat0"], [], [], []⟩

def wC2mat : World := ⟨⟨⟨[], [], ["mat0"]⟩, ⟨.mk "g" [], []⟩⟩⟩

def wC2 : World := ⟨⟨⟨[], [], []⟩, ⟨.mk "g" [], []⟩⟩⟩

/-- C2 counterexample: a physics scene holding one contact material
"mat0" referenced by no body — a state reachable by the manager's own
`addWorldToPhysic` (first conjunct) — is NOT restored by add-then-remove
of the empty world `wC2`: the remove's `removeUnusedContactMaterials`
cleanup purges the pre-existing "mat0" (second and third conjuncts). -/
theorem C2_add_remove_counterexample :
    (addWorldToPhysicPhy sC2zero wC2mat).1 = sC2 ∧
    (removeWorldFromPhysicPhy (addWorldToPhysicPhy sC2 wC2).1
      (addWorldToPhysicPhy sC2 wC2).2).1 ≠ sC2 ∧
    (removeWorldFromPhysicPhy (addWorldToPhysicPhy sC2 wC2).1
      (addWorldToPhysicPhy sC2 wC2).2).1.materials = [] := by
  refine ⟨by decide, by decide, by decide⟩

def sC2w : PhyState :=
  ⟨[("keep", "RigidBody")], ["keep"], ["used0", "unusedPre"], [("keep", "used0")],
   ["keep"], []⟩

def wC2w : World :=
  ⟨⟨⟨[.mk "b1" "j1" [.mk "b2" "j2" []]], [⟨"mech1"⟩], ["wm1"]⟩, ⟨.mk "g" [], []⟩⟩⟩

/-- C2 witness: add-then-remove of a two-body, one-mechanism,
one-material world over a scene with one kept body restores components,
bodies and connector state exactly and leaves the materials filtered to
the ones still referenced ("used0" stays, the pre-existing unreferenced
"unusedPre" is purged). -/
theorem C2_add_remove_registry_witness :
    (removeWorldFromPhysicPhy (addWorldToPhysicPhy sC2w wC2w).1
      (addWorldToPhysicPhy sC2w wC2w).2).1 =
      { sC2w with
        materials := sC2w.materials.filter
          (fun mt => sC2w.bodies.any (fun b => decide ((b, mt) ∈ sC2w.matUsedBy))) } :=
  C2_add_remove_registry sC2w wC2w (by decide) (by decide) (by decide) (by decide) (by decide)

end XWM
